import Mathlib

/-
Verification of the face_module head-blurring pipeline
(face_module/blur_utils.py, face_module/pose_head.py, face_module/head_detector.py).

Modelling conventions:
* Python ints are ℤ; Python floats are modelled exactly as ℚ (the spec formulas
  are exact arithmetic); Python `int(q)` truncates toward zero (`pytrunc`).
* An OpenCV image is a raster: a height, a width and a pixel map.  The external
  `cv2.GaussianBlur` is a caller-supplied function of the extracted region
  (`BlurFn`); `cv2.imread` is modelled by an `Option Image` argument (`none` is
  an unreadable file) and `cv2.imencode`/base64 by a caller-supplied total
  encoder, per the spec transport boundary.
* The external MediaPipe pose model is a caller-supplied function returning
  either a thrown exception, "no pose found", or the nine head landmarks
  (`PoseModel`); landmark coordinates are normalised rationals.
* numpy slicing `a[i:j]` is modelled with its clamping rules (`npSliceStart`).
* `blur_heads` additionally returns a trace with one `BoxEvent` per processed
  person box, recording which branch of the per-box state machine fired; the
  events correspond one to one to the branch points (and log lines) of the
  source loop.  `detect_head_in_subframe` is invoked exactly on the
  `detectedBlur`/`fallback` events.
* Python exceptions that the source can raise across the public boundary
  (`ValueError` for an unreadable image, `ZeroDivisionError` from
  `ph / original_h`) appear as an `Except PyError` result.
-/

namespace FaceModule

/-- Python `int()` applied to a rational: truncation toward zero. -/
def pytrunc (q : ℚ) : ℤ := if 0 ≤ q then ⌊q⌋ else ⌈q⌉

/-- A bounding box `(x, y, w, h)` in pixel coordinates. -/
abbrev Box := ℤ × ℤ × ℤ × ℤ

/-- An OpenCV image: a mutable raster with a height, a width and pixel values. -/
structure Image where
  h : ℕ
  w : ℕ
  pix : ℕ → ℕ → ℤ

/-- The external `cv2.GaussianBlur` (with the fixed kernel parameters of the
source): it maps the extracted region, given as a pixel map in region-relative
coordinates, to the blurred pixel map. -/
abbrev BlurFn := (ℕ → ℕ → ℤ) → ℕ → ℕ → ℤ

/-- blur_utils.apply_gaussian_blur: validates `w > 0, h > 0`, clamps the box,
blurs the clamped region in place, and reports whether a blur was applied.
The source wraps the region write in try/except and returns False on any
exception; the embedding is total, so the function never raises. -/
def apply_gaussian_blur (bf : BlurFn) (image : Image) (bbox : Box) : Image × Bool :=
  let (x, y, w, h) := bbox
  if w ≤ 0 ∨ h ≤ 0 then (image, false)
  else
    let x1 := max 0 x
    let y1 := max 0 y
    let x2 := min (image.w : ℤ) (x1 + w)
    let y2 := min (image.h : ℤ) (y1 + h)
    if x2 ≤ x1 ∨ y2 ≤ y1 then (image, false)
    else
      let region : ℕ → ℕ → ℤ := fun r c => image.pix (y1.toNat + r) (x1.toNat + c)
      if (y2 - y1).toNat * (x2 - x1).toNat = 0 then (image, false)
      else
        let blurred := bf region
        ({ image with
            pix := fun r c =>
              if y1.toNat ≤ r ∧ r < y2.toNat ∧ x1.toNat ≤ c ∧ c < x2.toNat then
                blurred (r - y1.toNat) (c - x1.toNat)
              else image.pix r c },
          true)

/-- The head region that blur_utils.apply_fallback_blur tries to blur:
`none` when the heuristic declines (box not standing, or head slice below the
5 px minimum), otherwise the top `hr` fraction of the person box. -/
def fallback_head_region (person_bbox : Box) (hr : ℚ) : Option Box :=
  let (x, y, w, h) := person_bbox
  if (h : ℚ) ≤ (w : ℚ) * (3 / 2) then none
  else
    let head_height := pytrunc ((h : ℚ) * hr)
    if head_height < 5 then none
    else some (x, y, w, head_height)

/-- blur_utils.apply_fallback_blur: blur the top `hr` fraction of a standing
person box (`h > w * 1.5`), declining when the head slice is under 5 px. -/
def apply_fallback_blur (bf : BlurFn) (image : Image) (person_bbox : Box) (hr : ℚ) :
    Image × Bool :=
  let (x, y, w, h) := person_bbox
  if (h : ℚ) ≤ (w : ℚ) * (3 / 2) then (image, false)
  else
    let head_height := pytrunc ((h : ℚ) * hr)
    if head_height < 5 then (image, false)
    else apply_gaussian_blur bf image (x, y, w, head_height)

/-- A pose LandmarkSet as consumed by the geometry estimator: the Python dict
`{name: (x, y, visibility)}` with integer pixel coordinates, modelled as a
partial map on names. -/
abbrev LandmarkSet := String → Option (ℤ × ℤ × ℚ)

/-- The fixed catalogue of head landmark names used by
calculate_head_bbox_from_landmarks (in the order of the source list). -/
def head_landmark_names : List String :=
  ["nose", "left_eye", "right_eye", "left_ear", "right_ear",
   "left_eye_inner", "right_eye_inner", "left_eye_outer", "right_eye_outer"]

/-- One step of the landmark collection loop: the point contributed by a given
name, kept only when the landmark is present with visibility above 0.5. -/
def pickPoint (landmarks : LandmarkSet) (name : String) : Option (ℤ × ℤ) :=
  match landmarks name with
  | some (x, y, visibility) => if 1 / 2 < visibility then some (x, y) else none
  | none => none

/-- The `points` list collected by calculate_head_bbox_from_landmarks: the
visible head landmarks, in catalogue order. -/
def headPoints (landmarks : LandmarkSet) : List (ℤ × ℤ) :=
  head_landmark_names.filterMap (pickPoint landmarks)

/-- Python `min` over a nonempty list (folded from its first element). -/
def listMinD (l : List ℤ) : ℤ := l.foldl min (l.headD 0)

/-- Python `max` over a nonempty list (folded from its first element). -/
def listMaxD (l : List ℤ) : ℤ := l.foldl max (l.headD 0)

/-- blur_utils.calculate_head_bbox_from_landmarks: estimate a head box from the
visible head landmarks, then clamp it to the sub-image shape `(img_h, img_w)`.
`person_bbox` is accepted for context and, as in the source, unused. -/
def calculate_head_bbox_from_landmarks (landmarks : LandmarkSet) (person_bbox : Box)
    (image_shape : ℕ × ℕ) (padding scale : ℚ) : Option Box :=
  let points := headPoints landmarks
  if points.length < 2 then none
  else
    let xs := points.map Prod.fst
    let ys := points.map Prod.snd
    let min_x := listMinD xs
    let max_x := listMaxD xs
    let min_y := listMinD ys
    let max_y := listMaxD ys
    let width := max_x - min_x
    let height := max_y - min_y
    let estimated_head_height : ℚ := (height : ℚ) * 2
    let estimated_head_width : ℚ :=
      max ((width : ℚ) * (3 / 2)) (estimated_head_height * (4 / 5))
    let center_x : ℚ := ((min_x : ℚ) + (max_x : ℚ)) / 2
    let center_y : ℚ := ((min_y : ℚ) + (max_y : ℚ)) / 2 - (height : ℚ) * (3 / 10)
    let final_width := estimated_head_width * (1 + padding) * scale
    let final_height := estimated_head_height * (1 + padding) * scale
    let x := pytrunc (center_x - final_width / 2)
    let y := pytrunc (center_y - final_height / 2)
    let w := pytrunc final_width
    let h := pytrunc final_height
    let img_h := image_shape.1
    let img_w := image_shape.2
    let xc := max 0 x
    let yc := max 0 y
    let wc := min w ((img_w : ℤ) - xc)
    let hc := min h ((img_h : ℤ) - yc)
    if wc ≤ 0 ∨ hc ≤ 0 then none
    else some (xc, yc, wc, hc)

/-- Modelled from the spec (section 4.1, steps 4 to 6): the pre-clamping head
box computed from the bounding rectangle `(min_x, min_y, max_x, max_y)` of the
visible landmarks, as `(left, top, final_width, final_height)` in exact
arithmetic.  This definition follows the spec text and is compared against the
source definition above in the refinement theorem for C7. -/
def spec_pre_clamp_box (min_x min_y max_x max_y : ℤ) (padding scale : ℚ) :
    ℚ × ℚ × ℚ × ℚ :=
  let width : ℚ := (max_x : ℚ) - (min_x : ℚ)
  let height : ℚ := (max_y : ℚ) - (min_y : ℚ)
  let estimated_head_height := height * 2
  let estimated_head_width := max (width * (3 / 2)) (estimated_head_height * (4 / 5))
  let center_x := ((min_x : ℚ) + (max_x : ℚ)) / 2
  let center_y := ((min_y : ℚ) + (max_y : ℚ)) / 2 - height * (3 / 10)
  let final_width := estimated_head_width * (1 + padding) * scale
  let final_height := estimated_head_height * (1 + padding) * scale
  (center_x - final_width / 2, center_y - final_height / 2, final_width, final_height)

/-- Modelled from the spec (section 4.1, steps 7 and 8): truncate a
pre-clamping box to integers, clamp it to `[0, img_w] x [0, img_h]` and reject
degenerate results. -/
def clamp_box_to_shape (image_shape : ℕ × ℕ) (q : ℚ × ℚ × ℚ × ℚ) : Option Box :=
  let x := max 0 (pytrunc q.1)
  let y := max 0 (pytrunc q.2.1)
  let w := min (pytrunc q.2.2.1) ((image_shape.2 : ℤ) - x)
  let h := min (pytrunc q.2.2.2) ((image_shape.1 : ℤ) - y)
  if w ≤ 0 ∨ h ≤ 0 then none
  else some (x, y, w, h)

/-- A name holds a visible landmark (visibility strictly above 0.5). -/
def visName (landmarks : LandmarkSet) (name : String) : Prop :=
  ∃ px py v, landmarks name = some (px, py, v) ∧ 1 / 2 < v

/-- One MediaPipe pose landmark: normalised coordinates and a visibility. -/
structure PoseLandmark where
  x : ℚ
  y : ℚ
  visibility : ℚ

/-- The external MediaPipe pose model applied to a subframe: it may throw
(`Except.error`), find no pose (`Except.ok none`), or return the nine head
landmarks of pose_head.LANDMARK_NAMES, indexed 0 to 8. -/
abbrev PoseModel := Image → Except Unit (Option (Fin 9 → PoseLandmark))

/-- The dict of head landmarks built by PoseHeadDetector.detect_head from the
model output: pixel coordinates `int(landmark.x * w), int(landmark.y * h)` and
the raw visibility, keyed by pose_head.LANDMARK_NAMES. -/
def landmarksFromPose (lms : Fin 9 → PoseLandmark) (w h : ℕ) : LandmarkSet :=
  fun name =>
    let entry : Fin 9 → Option (ℤ × ℤ × ℚ) := fun i =>
      some (pytrunc ((lms i).x * (w : ℚ)), pytrunc ((lms i).y * (h : ℚ)), (lms i).visibility)
    if name = "nose" then entry 0
    else if name = "left_eye_inner" then entry 1
    else if name = "left_eye" then entry 2
    else if name = "left_eye_outer" then entry 3
    else if name = "right_eye_inner" then entry 4
    else if name = "right_eye" then entry 5
    else if name = "right_eye_outer" then entry 6
    else if name = "left_ear" then entry 7
    else if name = "right_ear" then entry 8
    else none

/-- pose_head.PoseHeadDetector.detect_head: reject missing, empty or tiny
subframes, invoke the external pose model, and on success return the geometry
estimate together with the average visibility of the nine head landmarks.  Any
model failure is caught and degraded to `(none, 0)`. -/
def detect_head (pm : PoseModel) (subframe : Option Image) : Option Box × ℚ :=
  match subframe with
  | none => (none, 0)
  | some sf =>
    if sf.h * sf.w = 0 then (none, 0)
    else if sf.h < 20 ∨ sf.w < 20 then (none, 0)
    else
      match pm sf with
      | .error _ => (none, 0)
      | .ok none => (none, 0)
      | .ok (some lms) =>
        let landmarks := landmarksFromPose lms sf.w sf.h
        let avg_confidence :=
          ((List.finRange 9).map fun i => (lms i).visibility).sum / 9
        let head_bbox :=
          calculate_head_bbox_from_landmarks landmarks (0, 0, (sf.w : ℤ), (sf.h : ℤ))
            (sf.h, sf.w) (1 / 5) 2
        (head_bbox, avg_confidence)

/-- pose_head.detect_head_in_subframe: the detection result
`(head_bbox, confidence, is_valid)` with
`is_valid = (head_bbox is not None) and (confidence >= threshold)`. -/
def detect_head_in_subframe (pm : PoseModel) (subframe : Option Image)
    (confidence_threshold : ℚ) : Option Box × ℚ × Bool :=
  let r := detect_head pm subframe
  (r.1, r.2, r.1.isSome && decide (confidence_threshold ≤ r.2))

/-- The Python exceptions that can cross the blur_heads boundary. -/
inductive PyError where
  | valueError : PyError
  | zeroDivisionError : PyError
deriving DecidableEq

/-- The branch of the per-box state machine of the blur_heads loop that fired
for one person box.  `skippedFast` and `skippedSmall` are the two `continue`
branches before any detection; `skippedEmpty` is the empty-subframe `continue`;
`detectedBlur ok` records a valid detection with the result of the blur;
`fallback ok` records the fallback path with its result.
`detect_head_in_subframe` is invoked exactly on the last two events. -/
inductive BoxEvent where
  | skippedFast : BoxEvent
  | skippedSmall : BoxEvent
  | skippedEmpty : BoxEvent
  | detectedBlur : Bool → BoxEvent
  | fallback : Bool → BoxEvent
deriving DecidableEq

/-- Whether the event contributed `blur_applied = True` for its box. -/
def eventApplied : BoxEvent → Bool
  | .detectedBlur b => b
  | .fallback b => b
  | _ => false

/-- Whether the box survived the two skip rules of the loop (the predicate that
should_process_person reimplements): anything past `skippedFast`/`skippedSmall`. -/
def eventProcessed : BoxEvent → Bool
  | .skippedFast => false
  | .skippedSmall => false
  | _ => true

/-- Whether detection was actually invoked on the box (the loop reached
`detect_head_in_subframe`). -/
def eventInvoked : BoxEvent → Bool
  | .detectedBlur _ => true
  | .fallback _ => true
  | _ => false

/-- The effective start (equally, stop) index of a numpy slice bound `i` on an
axis of length `len`: negative indices count from the end, and everything is
clamped to `[0, len]`. -/
def npSliceStart (len : ℕ) (i : ℤ) : ℤ :=
  if i < 0 then max ((len : ℤ) + i) 0 else min i (len : ℤ)

/-- The shape `(rows, cols)` of the numpy subframe `image[py:py+ph, px:px+pw]`
of an image of shape `(H, W)`. -/
def subframeDims (H W : ℕ) (box : Box) : ℕ × ℕ :=
  ((npSliceStart H (box.2.1 + box.2.2.2) - npSliceStart H box.2.1).toNat,
   (npSliceStart W (box.1 + box.2.2.1) - npSliceStart W box.1).toNat)

/-- The numpy subframe `image[py:py+ph, px:px+pw]` as an image. -/
def subframe (image : Image) (px py pw ph : ℤ) : Image :=
  ⟨(subframeDims image.h image.w (px, py, pw, ph)).1,
   (subframeDims image.h image.w (px, py, pw, ph)).2,
   fun r c => image.pix ((npSliceStart image.h py).toNat + r) ((npSliceStart image.w px).toNat + c)⟩

/-- One iteration of the blur_heads person loop on box `(px, py, pw, ph)`:
the unguarded division `ph / original_h`, the fast-mode and minimum-size skip
rules, subframe extraction, detection, and the blur or fallback application.
Returns the updated image, the `result` flag of the applied blur, and the
`BoxEvent` recording which branch fired. -/
def processPerson (bf : BlurFn) (pm : PoseModel) (mode : String) (original_h : ℤ)
    (box : Box) (image : Image) : Except PyError (Image × Bool × BoxEvent) :=
  let (px, py, pw, ph) := box
  if original_h = 0 then .error .zeroDivisionError
  else
    let relative_height : ℚ := (ph : ℚ) / (original_h : ℚ)
    if mode = "fast" ∧ relative_height < 1 / 10 then .ok (image, false, .skippedFast)
    else if pw < 30 ∨ ph < 30 then .ok (image, false, .skippedSmall)
    else
      let sub := subframe image px py pw ph
      if sub.h * sub.w = 0 then .ok (image, false, .skippedEmpty)
      else
        let dres := detect_head_in_subframe pm (some sub) (1 / 2)
        match dres.1, dres.2.2 with
        | some hb, true =>
          let r := apply_gaussian_blur bf image (px + hb.1, py + hb.2.1, hb.2.2.1, hb.2.2.2)
          .ok (r.1, r.2, .detectedBlur r.2)
        | some _, false =>
          let r := apply_fallback_blur bf image (px, py, pw, ph) (1 / 4)
          .ok (r.1, r.2, .fallback r.2)
        | none, _ =>
          let r := apply_fallback_blur bf image (px, py, pw, ph) (1 / 4)
          .ok (r.1, r.2, .fallback r.2)

/-- The blur_heads person loop over the whole box list, threading the mutated
image and the `blur_applied` flag and collecting the per-box events. -/
def runBoxes (bf : BlurFn) (pm : PoseModel) (mode : String) (original_h : ℤ) :
    List Box → Image → Except PyError (Image × Bool × List BoxEvent)
  | [], _image => .ok (_image, false, [])
  | box :: rest, image =>
    match processPerson bf pm mode original_h box image with
    | .error e => .error e
    | .ok (img1, ap1, ev) =>
      match runBoxes bf pm mode original_h rest img1 with
      | .error e => .error e
      | .ok (img2, ap2, evs) => .ok (img2, ap1 || ap2, ev :: evs)

/-- blur_utils.encode_image_base64.  Modelled from the spec: `cv2.imencode`
and base64 are external transport ("image encoding/decoding transport" is out
of scope); the encoder is a caller-supplied total function, so the source
function always returns an encoded string. -/
def encode_image_base64 (enc : Image → String) (image : Image) : Option String :=
  some (enc image)

/-- head_detector.blur_heads: raise ValueError on an unreadable image, run the
person loop, and return the encoded image when any blur was applied, `none`
otherwise, together with the per-box event trace. -/
def blur_heads (bf : BlurFn) (pm : PoseModel) (enc : Image → String)
    (person_coordinates : List Box) (image_opt : Option Image)
    (original_size : ℤ × ℤ) (mode : String) :
    Except PyError (Option String × List BoxEvent) :=
  match image_opt with
  | none => .error .valueError
  | some image =>
    match runBoxes bf pm mode original_size.2 person_coordinates image with
    | .error e => .error e
    | .ok (imgF, blur_applied, evs) =>
      if blur_applied then .ok (encode_image_base64 enc imgF, evs)
      else .ok (none, evs)

/-- head_detector.should_process_person: size rule first, then (only in fast
mode) the relative-height rule, with the same unguarded division. -/
def should_process_person (person_bbox : Box) (original_size : ℤ × ℤ)
    (mode : String) : Except PyError Bool :=
  let (_, _, pw, ph) := person_bbox
  if pw < 30 ∨ ph < 30 then .ok false
  else if mode = "fast" then
    if original_size.2 = 0 then .error .zeroDivisionError
    else .ok (decide ((1 : ℚ) / 10 ≤ (ph : ℚ) / (original_size.2 : ℚ)))
  else .ok true

/-- The generator `sum(1 for bbox in coords if should_process_person ...)`:
counts the boxes that should be processed, propagating the first exception. -/
def countProcess (boxes : List Box) (original_size : ℤ × ℤ) (mode : String) :
    Except PyError ℕ :=
  match boxes with
  | [] => .ok 0
  | b :: rest =>
    match should_process_person b original_size mode with
    | .error e => .error e
    | .ok tb =>
      match countProcess rest original_size mode with
      | .error e => .error e
      | .ok n => .ok ((if tb then 1 else 0) + n)

/-- The statistics dict returned by head_detector.get_processing_stats. -/
structure Stats where
  total_persons : ℕ
  will_process : ℕ
  will_skip : ℕ
  mode : String
deriving DecidableEq

/-- head_detector.get_processing_stats: totals derived from
should_process_person without running detection. -/
def get_processing_stats (person_coordinates : List Box) (original_size : ℤ × ℤ)
    (mode : String) : Except PyError Stats :=
  match countProcess person_coordinates original_size mode with
  | .error e => .error e
  | .ok n =>
    .ok ⟨person_coordinates.length, n, person_coordinates.length - n, mode⟩

/-! Concrete instances used by witnesses and counterexamples. -/

/-- A blur that replaces every pixel of the region by 1 (a stand-in for the
external Gaussian blur, which in general changes pixel values). -/
def bfOne : BlurFn := fun _ _ _ => 1

/-- A 20 x 20 all-zero image. -/
def imgC20 : Image := ⟨20, 20, fun _ _ => 0⟩

/-- A 100 x 100 all-zero image. -/
def imgC100 : Image := ⟨100, 100, fun _ _ => 0⟩

/-- A 30 x 30 all-zero image. -/
def img30 : Image := ⟨30, 30, fun _ _ => 0⟩

/-- A pose model that finds no pose in any subframe. -/
def pmNone : PoseModel := fun _ => .ok none

/-- A constant encoder. -/
def encEmpty : Image → String := fun _ => ""

/-- Nine identical landmarks with visibility 9/10. -/
def lmsAll : Fin 9 → PoseLandmark := fun _ => ⟨1 / 2, 1 / 2, 9 / 10⟩

/-- A pose model that always returns the `lmsAll` landmarks. -/
def pmGood : PoseModel := fun _ => .ok (some lmsAll)

/-- A landmark set with exactly one visible landmark. -/
def lsetNose : LandmarkSet := fun name =>
  if name = "nose" then some (5, 5, 9 / 10) else none

/-- A landmark set with exactly two visible landmarks. -/
def lsetTwo : LandmarkSet := fun name =>
  if name = "nose" then some (40, 50, 9 / 10)
  else if name = "left_eye" then some (60, 60, 9 / 10)
  else none

/-! Helper lemmas. -/

/-- Evaluation lemma for `pytrunc` on nonnegative rationals. -/
theorem pytrunc_of_floor (q : ℚ) (n : ℤ) (h0 : 0 ≤ q) (h1 : (n : ℚ) ≤ q)
    (h2 : q < n + 1) : pytrunc q = n := by
  rw [pytrunc, if_pos h0]
  exact Int.floor_eq_iff.mpr ⟨h1, h2⟩

/-- A contributed point witnesses a visible landmark at its name. -/
theorem pickPoint_some_vis (landmarks : LandmarkSet) (name : String) (p : ℤ × ℤ)
    (h : pickPoint landmarks name = some p) : visName landmarks name := by
  unfold pickPoint at h
  cases hl : landmarks name with
  | none =>
    rw [hl] at h
    exact absurd h (by simp)
  | some t =>
    obtain ⟨px, py, v⟩ := t
    simp only [hl] at h
    by_cases hv : 1 / 2 < v
    · exact ⟨px, py, v, hl, hv⟩
    · rw [if_neg hv] at h
      exact absurd h (by simp)

/-- When at most one name is visible, the collected point list has at most one
element (over any duplicate-free name list). -/
theorem filterMap_pick_le_one (landmarks : LandmarkSet) :
    ∀ names : List String, names.Nodup →
      (∀ a b, visName landmarks a → visName landmarks b → a = b) →
      (names.filterMap (pickPoint landmarks)).length ≤ 1 := by
  intro names
  induction names with
  | nil =>
    intro _ _
    simp
  | cons n ns ih =>
    intro hnd hvis
    rw [List.filterMap_cons]
    cases hp : pickPoint landmarks n with
    | none => exact ih (List.nodup_cons.mp hnd).2 hvis
    | some p =>
      have hnil : ns.filterMap (pickPoint landmarks) = [] := by
        rw [List.filterMap_eq_nil]
        intro m hm
        cases hq : pickPoint landmarks m with
        | none => rfl
        | some q =>
          have hmn : m = n :=
            hvis m n (pickPoint_some_vis _ _ _ hq) (pickPoint_some_vis _ _ _ hp)
          exact absurd (hmn ▸ hm) (List.nodup_cons.mp hnd).1
      simp [hnil]

/-! Claim theorems. -/

/-- C1 (amended).  For every blur function, image and box `(x, y, w, h)` with
`w > 0` and `h > 0`, apply_gaussian_blur never raises (it is total), writes
only pixels of the clamped rectangle
`[max 0 x, max 0 x + w) x [max 0 y, max 0 y + h)` intersected with the image
bounds — every pixel outside that rectangle keeps its value — and reports
success exactly when that rectangle is nonempty.  (The source clamps the
origin to `max 0 x, max 0 y` before adding the full width and height, so for a
negative origin the written region is not the intersection of the original
rectangle `[x, x+w) x [y, y+h)` with the image; see the counterexample.) -/
theorem blur_touches_only_clamped_region (bf : BlurFn) (img : Image) (x y w h : ℤ)
    (hw : 0 < w) (hh : 0 < h) :
    (∀ r c : ℕ,
      ¬(max 0 y ≤ (r : ℤ) ∧ (r : ℤ) < min (img.h : ℤ) (max 0 y + h) ∧
        max 0 x ≤ (c : ℤ) ∧ (c : ℤ) < min (img.w : ℤ) (max 0 x + w)) →
      (apply_gaussian_blur bf img (x, y, w, h)).1.pix r c = img.pix r c) ∧
    ((apply_gaussian_blur bf img (x, y, w, h)).2 = true ↔
      (max 0 x < min (img.w : ℤ) (max 0 x + w) ∧ max 0 y < min (img.h : ℤ) (max 0 y + h))) := by
  unfold apply_gaussian_blur
  dsimp only
  rw [if_neg (by omega)]
  split_ifs with hdeg hzero
  · refine ⟨fun r c _ => rfl, ?_⟩
    simp only [Bool.false_eq_true, false_iff]
    omega
  · exfalso
    rcases Nat.mul_eq_zero.mp hzero with hz | hz <;> omega
  · refine ⟨?_, by simp; omega⟩
    intro r c hout
    dsimp only
    rw [if_neg (by omega)]

/-- C1 witness: for the box `(-3, 0, 5, 5)` (partially outside a 20 x 20
image) the pixel at row 0, column 10 — outside the clamped rectangle — is
unchanged. -/
theorem blur_touches_only_clamped_region_witness :
    (0 : ℤ) < 5 ∧
      (apply_gaussian_blur bfOne imgC20 (-3, 0, 5, 5)).1.pix 0 10 = imgC20.pix 0 10 :=
  ⟨by norm_num,
    (blur_touches_only_clamped_region bfOne imgC20 (-3) 0 5 5 (by norm_num) (by norm_num)).1
      0 10 (by norm_num)⟩

/-- C1 counterexample.  For the box `(-3, 0, 5, 5)` — `w, h > 0`, rectangle
`[-3, 2) x [0, 5)` partially outside the 20 x 20 image — the pixel at row 0,
column 3 lies outside the rectangle `[x, x+w) x [y, y+h)` (hence outside its
intersection with the image), yet apply_gaussian_blur changes it from 0 to 1:
the claim that exactly the pixels of the intersection are modified is false. -/
theorem blur_negative_origin_counterexample :
    (apply_gaussian_blur bfOne imgC20 (-3, 0, 5, 5)).1.pix 0 3 = 1 ∧
    imgC20.pix 0 3 = 0 ∧
    ¬((-3 : ℤ) ≤ (3 : ℤ) ∧ (3 : ℤ) < -3 + 5) := by
  refine ⟨?_, rfl, by norm_num⟩
  decide

/-- C2 (amended).  The fallback heuristic produces no region (and
apply_fallback_blur returns False) when `h ≤ w * 1.5`; when `h > w * 1.5` the
candidate head region is `(x, y, w, int(h * hr))` — Python `int` truncation,
not rounding — accepted when that height is at least 5 and declined below 5;
box `(10, 20, 100, 300)` with the default ratio 1/4 yields
`(10, 20, 100, 75)`; and apply_fallback_blur blurs exactly the produced
region. -/
theorem fallback_region_spec (x y w h : ℤ) (hr : ℚ) :
    ((h : ℚ) ≤ (w : ℚ) * (3 / 2) → fallback_head_region (x, y, w, h) hr = none) ∧
    ((w : ℚ) * (3 / 2) < (h : ℚ) → 5 ≤ pytrunc ((h : ℚ) * hr) →
      fallback_head_region (x, y, w, h) hr = some (x, y, w, pytrunc ((h : ℚ) * hr))) ∧
    ((w : ℚ) * (3 / 2) < (h : ℚ) → pytrunc ((h : ℚ) * hr) < 5 →
      fallback_head_region (x, y, w, h) hr = none) ∧
    (fallback_head_region (10, 20, 100, 300) (1 / 4) = some (10, 20, 100, 75)) ∧
    (∀ bf img, apply_fallback_blur bf img (x, y, w, h) hr =
      match fallback_head_region (x, y, w, h) hr with
      | none => (img, false)
      | some hb => apply_gaussian_blur bf img hb) := by
  have h75 : pytrunc (((300 : ℤ) : ℚ) * (1 / 4)) = 75 :=
    pytrunc_of_floor _ _ (by norm_num) (by norm_num) (by norm_num)
  refine ⟨?_, ?_, ?_, ?_, ?_⟩
  · intro hle
    unfold fallback_head_region
    dsimp only
    rw [if_pos hle]
  · intro hgt hge
    unfold fallback_head_region
    dsimp only
    rw [if_neg (not_le.mpr hgt), if_neg (by omega)]
  · intro hgt hlt
    unfold fallback_head_region
    dsimp only
    rw [if_neg (not_le.mpr hgt), if_pos hlt]
  · unfold fallback_head_region
    dsimp only
    rw [if_neg (by norm_num), h75, if_neg (by norm_num)]
  · intro bf img
    unfold apply_fallback_blur fallback_head_region
    dsimp only
    split_ifs <;> rfl

/-- C2 witness: box `(0, 0, 200, 100)` is declined (`100 ≤ 300`), and box
`(10, 20, 100, 300)` yields the head region `(10, 20, 100, 75)` through the
accepting branch. -/
theorem fallback_region_spec_witness :
    fallback_head_region (0, 0, 200, 100) (1 / 4) = none ∧
    fallback_head_region (10, 20, 100, 300) (1 / 4) = some (10, 20, 100, 75) := by
  have h75 : pytrunc (((300 : ℤ) : ℚ) * (1 / 4)) = 75 :=
    pytrunc_of_floor _ _ (by norm_num) (by norm_num) (by norm_num)
  refine ⟨(fallback_region_spec 0 0 200 100 (1 / 4)).1 (by norm_num), ?_⟩
  have h := (fallback_region_spec 10 20 100 300 (1 / 4)).2.1 (by norm_num)
    (by rw [h75]; norm_num)
  rw [h75] at h
  exact h

/-- C2 counterexample.  For the person box `(0, 0, 10, 31)` (standing:
`31 > 15`) the code computes head height `int(31 * 0.25) = int(7.75) = 7`,
whereas rounding as the claim states would give `round(7.75) = 8`. -/
theorem fallback_truncation_counterexample :
    fallback_head_region (0, 0, 10, 31) (1 / 4) = some (0, 0, 10, 7) ∧
    round ((31 : ℚ) * (1 / 4)) = 8 := by
  have h7 : pytrunc (((31 : ℤ) : ℚ) * (1 / 4)) = 7 :=
    pytrunc_of_floor _ _ (by norm_num) (by norm_num) (by norm_num)
  constructor
  · unfold fallback_head_region
    dsimp only
    rw [if_neg (by norm_num), h7, if_neg (by norm_num)]
  · rw [round_eq, Int.floor_eq_iff]
    norm_num

/-- C5.  For every LandmarkSet in which fewer than 2 landmarks are visible
(visibility strictly above 0.5) — formalised as: any two visible names are
equal — calculate_head_bbox_from_landmarks returns none, for every person box,
sub-image shape, padding and scale. -/
theorem insufficient_landmarks_give_none (landmarks : LandmarkSet) (person_bbox : Box)
    (image_shape : ℕ × ℕ) (padding scale : ℚ)
    (hvis : ∀ a b, visName landmarks a → visName landmarks b → a = b) :
    calculate_head_bbox_from_landmarks landmarks person_bbox image_shape padding scale
      = none := by
  have hlen : (headPoints landmarks).length ≤ 1 :=
    filterMap_pick_le_one landmarks head_landmark_names (by decide) hvis
  unfold calculate_head_bbox_from_landmarks
  dsimp only
  rw [if_pos (by omega)]

/-- C5 witness: a landmark set whose only visible landmark is the nose yields
none. -/
theorem insufficient_landmarks_give_none_witness :
    calculate_head_bbox_from_landmarks lsetNose (0, 0, 50, 50) (100, 100) (1 / 5) 2
      = none := by
  apply insufficient_landmarks_give_none
  have key : ∀ n, visName lsetNose n → n = "nose" := by
    intro n hv
    obtain ⟨px, py, v, hsome, hgt⟩ := hv
    by_cases hn : n = "nose"
    · exact hn
    · simp only [lsetNose, if_neg hn] at hsome
      exact absurd hsome (by simp)
  intro a b ha hb
  exact (key a ha).trans (key b hb).symm

/-- The visible points of the two-landmark example set. -/
theorem headPoints_lsetTwo : headPoints lsetTwo = [(40, 50), (60, 60)] := by
  have hq : ((2 : ℚ)⁻¹ < 9 / 10) = True := by norm_num
  simp [headPoints, head_landmark_names, pickPoint, lsetTwo, List.filterMap_cons, hq]

/-- Concrete evaluation of the geometry estimator on the two-landmark example:
span (40,50) to (60,60), head estimate 30 x 20, padded and doubled to 72 x 48,
centred at (50, 52), clamped inside a 100 x 100 sub-image. -/
theorem calc_lsetTwo :
    calculate_head_bbox_from_landmarks lsetTwo (0, 0, 50, 50) (100, 100) (1 / 5) 2 =
      some (14, 28, 72, 48) := by
  unfold calculate_head_bbox_from_landmarks
  dsimp only
  rw [headPoints_lsetTwo]
  norm_num [listMinD, listMaxD, pytrunc]

/-- C6.  Whenever calculate_head_bbox_from_landmarks returns a box
`(x, y, w, h)` for a sub-image of shape `(img_h, img_w)`, that box is fully
contained in the sub-image and non-degenerate:
`0 ≤ x`, `0 ≤ y`, `x + w ≤ img_w`, `y + h ≤ img_h`, `0 < w`, `0 < h`. -/
theorem head_bbox_contained (landmarks : LandmarkSet) (person_bbox : Box)
    (image_shape : ℕ × ℕ) (padding scale : ℚ) (b : Box)
    (heq : calculate_head_bbox_from_landmarks landmarks person_bbox image_shape
      padding scale = some b) :
    0 ≤ b.1 ∧ 0 ≤ b.2.1 ∧ b.1 + b.2.2.1 ≤ (image_shape.2 : ℤ) ∧
      b.2.1 + b.2.2.2 ≤ (image_shape.1 : ℤ) ∧ 0 < b.2.2.1 ∧ 0 < b.2.2.2 := by
  unfold calculate_head_bbox_from_landmarks at heq
  dsimp only at heq
  split_ifs at heq with h1 h2
  all_goals
    first
      | exact Option.noConfusion heq
      | · injection heq with h3
          subst h3
          push_neg at h2
          dsimp only
          refine ⟨?_, ?_, ?_, ?_, ?_, ?_⟩ <;> omega

/-- C6 witness: the two-landmark example yields the box `(14, 28, 72, 48)`
inside a 100 x 100 sub-image, and the containment bounds hold for it. -/
theorem head_bbox_contained_witness :
    (0 : ℤ) ≤ 14 ∧ (0 : ℤ) ≤ 28 ∧ (14 : ℤ) + 72 ≤ 100 ∧ (28 : ℤ) + 48 ≤ 100 ∧
      (0 : ℤ) < 72 ∧ (0 : ℤ) < 48 :=
  head_bbox_contained lsetTwo (0, 0, 50, 50) (100, 100) (1 / 5) 2 (14, 28, 72, 48)
    calc_lsetTwo

/-- C7.  For every LandmarkSet with at least 2 visible points, the source
geometry estimator agrees with the spec formulas: its result is exactly the
spec pre-clamping box (head extent `height * 2` by
`max (width * 1.5) (head_height * 0.8)`, centre
`((min_x + max_x) / 2, (min_y + max_y) / 2 - height * 0.3)`, final dimensions
`estimated_dim * (1 + padding) * scale`) truncated and clamped to the
sub-image shape. -/
theorem geometry_matches_spec (landmarks : LandmarkSet) (person_bbox : Box)
    (image_shape : ℕ × ℕ) (padding scale : ℚ)
    (hlen : 2 ≤ (headPoints landmarks).length) :
    calculate_head_bbox_from_landmarks landmarks person_bbox image_shape padding scale =
      clamp_box_to_shape image_shape
        (spec_pre_clamp_box
          (listMinD ((headPoints landmarks).map Prod.fst))
          (listMinD ((headPoints landmarks).map Prod.snd))
          (listMaxD ((headPoints landmarks).map Prod.fst))
          (listMaxD ((headPoints landmarks).map Prod.snd)) padding scale) := by
  unfold calculate_head_bbox_from_landmarks clamp_box_to_shape spec_pre_clamp_box
  dsimp only
  rw [if_neg (by omega)]
  simp only [Int.cast_sub]

/-- C7 witness: the refinement equation instantiated at the two-landmark
example set. -/
theorem geometry_matches_spec_witness :
    calculate_head_bbox_from_landmarks lsetTwo (0, 0, 50, 50) (100, 100) (1 / 5) 2 =
      clamp_box_to_shape (100, 100)
        (spec_pre_clamp_box
          (listMinD ((headPoints lsetTwo).map Prod.fst))
          (listMinD ((headPoints lsetTwo).map Prod.snd))
          (listMaxD ((headPoints lsetTwo).map Prod.fst))
          (listMaxD ((headPoints lsetTwo).map Prod.snd)) (1 / 5) 2) :=
  geometry_matches_spec lsetTwo (0, 0, 50, 50) (100, 100) (1 / 5) 2
    (by rw [headPoints_lsetTwo]; norm_num)

/-- C4.  detect_head_in_subframe returns `is_valid = true` exactly when the
head box is present and the confidence is at least the threshold; any failure
of the external pose model (thrown exception or no pose found) yields
`(none, 0, false)` — the failure is caught, never propagated; and on success
the confidence is the mean visibility of the nine head landmarks. -/
theorem detect_head_contract (pm : PoseModel) (sf : Option Image) (thr : ℚ) :
    ((detect_head_in_subframe pm sf thr).2.2 = true ↔
      ((detect_head_in_subframe pm sf thr).1 ≠ none ∧
        thr ≤ (detect_head_in_subframe pm sf thr).2.1)) ∧
    (∀ s, sf = some s → (pm s = .error () ∨ pm s = .ok none) →
      detect_head_in_subframe pm sf thr = (none, 0, false)) ∧
    (∀ s lms, sf = some s → s.h * s.w ≠ 0 → ¬(s.h < 20 ∨ s.w < 20) →
      pm s = .ok (some lms) →
      (detect_head_in_subframe pm sf thr).2.1 =
        ((List.finRange 9).map fun i => (lms i).visibility).sum / 9) := by
  refine ⟨?_, ?_, ?_⟩
  · unfold detect_head_in_subframe
    dsimp only
    rw [Bool.and_eq_true, decide_eq_true_eq, Option.isSome_iff_ne_none]
  · intro s hs hfail
    subst hs
    unfold detect_head_in_subframe detect_head
    dsimp only
    by_cases h0 : s.h * s.w = 0
    · rw [if_pos h0]
      rfl
    · rw [if_neg h0]
      by_cases h20 : s.h < 20 ∨ s.w < 20
      · rw [if_pos h20]
        rfl
      · rw [if_neg h20]
        rcases hfail with hf | hf <;> rw [hf] <;> rfl
  · intro s lms hs h0 h20 hpm
    subst hs
    unfold detect_head_in_subframe detect_head
    dsimp only
    rw [if_neg h0, if_neg h20, hpm]

/-- C4 witness: a model reporting no pose degrades to `(none, 0, false)`, and
a model returning the constant landmark set gives the mean visibility as
confidence. -/
theorem detect_head_contract_witness :
    detect_head_in_subframe pmNone (some img30) (1 / 2) = (none, 0, false) ∧
    (detect_head_in_subframe pmGood (some img30) (1 / 2)).2.1 =
      ((List.finRange 9).map fun i => (lmsAll i).visibility).sum / 9 :=
  ⟨(detect_head_contract pmNone (some img30) (1 / 2)).2.1 img30 rfl (Or.inr rfl),
    (detect_head_contract pmGood (some img30) (1 / 2)).2.2 img30 lmsAll rfl
      (by norm_num [img30]) (by norm_num [img30]) rfl⟩

/-- Region blurring does not change the image dimensions. -/
theorem apply_gaussian_blur_dims (bf : BlurFn) (image : Image) (bbox : Box) :
    (apply_gaussian_blur bf image bbox).1.h = image.h ∧
      (apply_gaussian_blur bf image bbox).1.w = image.w := by
  obtain ⟨x, y, w, h⟩ := bbox
  unfold apply_gaussian_blur
  dsimp only
  split_ifs <;> exact ⟨rfl, rfl⟩

/-- Fallback blurring does not change the image dimensions. -/
theorem apply_fallback_blur_dims (bf : BlurFn) (image : Image) (bbox : Box) (hr : ℚ) :
    (apply_fallback_blur bf image bbox hr).1.h = image.h ∧
      (apply_fallback_blur bf image bbox hr).1.w = image.w := by
  obtain ⟨x, y, w, h⟩ := bbox
  unfold apply_fallback_blur
  dsimp only
  split_ifs
  · exact ⟨rfl, rfl⟩
  · exact ⟨rfl, rfl⟩
  · exact apply_gaussian_blur_dims bf image _

/-- The full per-box characterisation of one loop iteration, given a nonzero
original height: the step succeeds, preserves the image dimensions, reports
the applied flag of its event, and the event classifies the box by exactly the
source skip conditions. -/
theorem processPerson_spec (bf : BlurFn) (pm : PoseModel) (mode : String) (oh : ℤ)
    (box : Box) (image : Image) (h0 : oh ≠ 0) :
    ∃ img1 ap ev, processPerson bf pm mode oh box image = .ok (img1, ap, ev) ∧
      img1.h = image.h ∧ img1.w = image.w ∧ ap = eventApplied ev ∧
      (ev = .skippedFast ↔ (mode = "fast" ∧ (box.2.2.2 : ℚ) / (oh : ℚ) < 1 / 10)) ∧
      (eventProcessed ev = true ↔
        (¬(mode = "fast" ∧ (box.2.2.2 : ℚ) / (oh : ℚ) < 1 / 10) ∧
          ¬(box.2.2.1 < 30 ∨ box.2.2.2 < 30))) ∧
      (eventInvoked ev = true ↔
        (¬(mode = "fast" ∧ (box.2.2.2 : ℚ) / (oh : ℚ) < 1 / 10) ∧
          ¬(box.2.2.1 < 30 ∨ box.2.2.2 < 30) ∧
          ¬((subframeDims image.h image.w box).1 * (subframeDims image.h image.w box).2
            = 0))) := by
  obtain ⟨px, py, pw, ph⟩ := box
  unfold processPerson
  dsimp only
  rw [if_neg h0]
  by_cases hf : mode = "fast" ∧ (ph : ℚ) / (oh : ℚ) < 1 / 10
  · rw [if_pos hf]
    exact ⟨image, false, .skippedFast, rfl, rfl, rfl, rfl,
      iff_of_true rfl hf,
      iff_of_false (by simp [eventProcessed]) (fun hc => hc.1 hf),
      iff_of_false (by simp [eventInvoked]) (fun hc => hc.1 hf)⟩
  · rw [if_neg hf]
    by_cases hs : pw < 30 ∨ ph < 30
    · rw [if_pos hs]
      exact ⟨image, false, .skippedSmall, rfl, rfl, rfl, rfl,
        iff_of_false (by simp) hf,
        iff_of_false (by simp [eventProcessed]) (fun hc => hc.2 hs),
        iff_of_false (by simp [eventInvoked]) (fun hc => hc.2.1 hs)⟩
    · rw [if_neg hs]
      by_cases he : (subframe image px py pw ph).h * (subframe image px py pw ph).w = 0
      · rw [if_pos he]
        exact ⟨image, false, .skippedEmpty, rfl, rfl, rfl, rfl,
          iff_of_false (by simp) hf,
          iff_of_true rfl ⟨hf, hs⟩,
          iff_of_false (by simp [eventInvoked]) (fun hc => hc.2.2 he)⟩
      · rw [if_neg he]
        cases hd : (detect_head_in_subframe pm (some (subframe image px py pw ph)) (1 / 2)).1 with
        | some hb =>
          cases hv : (detect_head_in_subframe pm (some (subframe image px py pw ph)) (1 / 2)).2.2 with
          | true =>
            refine ⟨(apply_gaussian_blur bf image
                  (px + hb.1, py + hb.2.1, hb.2.2.1, hb.2.2.2)).1,
              (apply_gaussian_blur bf image
                  (px + hb.1, py + hb.2.1, hb.2.2.1, hb.2.2.2)).2,
              .detectedBlur (apply_gaussian_blur bf image
                (px + hb.1, py + hb.2.1, hb.2.2.1, hb.2.2.2)).2, ?_, ?_, ?_, rfl,
              iff_of_false (by simp) hf,
              iff_of_true rfl ⟨hf, hs⟩,
              iff_of_true rfl ⟨hf, hs, he⟩⟩
            · rfl
            · exact (apply_gaussian_blur_dims bf image _).1
            · exact (apply_gaussian_blur_dims bf image _).2
          | false =>
            refine ⟨(apply_fallback_blur bf image (px, py, pw, ph) (1 / 4)).1,
              (apply_fallback_blur bf image (px, py, pw, ph) (1 / 4)).2,
              .fallback (apply_fallback_blur bf image (px, py, pw, ph) (1 / 4)).2,
              ?_, ?_, ?_, rfl,
              iff_of_false (by simp) hf,
              iff_of_true rfl ⟨hf, hs⟩,
              iff_of_true rfl ⟨hf, hs, he⟩⟩
            · rfl
            · exact (apply_fallback_blur_dims bf image _ _).1
            · exact (apply_fallback_blur_dims bf image _ _).2
        | none =>
          refine ⟨(apply_fallback_blur bf image (px, py, pw, ph) (1 / 4)).1,
            (apply_fallback_blur bf image (px, py, pw, ph) (1 / 4)).2,
            .fallback (apply_fallback_blur bf image (px, py, pw, ph) (1 / 4)).2,
            ?_, ?_, ?_, rfl,
            iff_of_false (by simp) hf,
            iff_of_true rfl ⟨hf, hs⟩,
            iff_of_true rfl ⟨hf, hs, he⟩⟩
          · rfl
          · exact (apply_fallback_blur_dims bf image _ _).1
          · exact (apply_fallback_blur_dims bf image _ _).2

/-- The pure pass predicate that a box survives both skip rules of the loop
(the condition should_process_person computes). -/
def boxPassB (mode : String) (oh : ℤ) (b : Box) : Bool :=
  decide (¬(mode = "fast" ∧ (b.2.2.2 : ℚ) / (oh : ℚ) < 1 / 10) ∧
    ¬(b.2.2.1 < 30 ∨ b.2.2.2 < 30))

/-- The whole-loop characterisation: with a nonzero original height the loop
never fails, preserves the image dimensions, returns one event per box, sets
`blur_applied` exactly when some event applied a blur, counts the boxes that
survive the skip rules, and classifies each box by the source skip
conditions. -/
theorem runBoxes_spec (bf : BlurFn) (pm : PoseModel) (mode : String) (oh : ℤ)
    (h0 : oh ≠ 0) :
    ∀ (boxes : List Box) (image : Image),
      ∃ imgF ap evs, runBoxes bf pm mode oh boxes image = .ok (imgF, ap, evs) ∧
        evs.length = boxes.length ∧
        imgF.h = image.h ∧ imgF.w = image.w ∧
        ap = evs.any eventApplied ∧
        evs.countP eventProcessed = boxes.countP (boxPassB mode oh) ∧
        ∀ i (hb : i < boxes.length) (he : i < evs.length),
          (evs.get ⟨i, he⟩ = .skippedFast ↔
            (mode = "fast" ∧ ((boxes.get ⟨i, hb⟩).2.2.2 : ℚ) / (oh : ℚ) < 1 / 10)) ∧
          (eventProcessed (evs.get ⟨i, he⟩) = true ↔
            (¬(mode = "fast" ∧ ((boxes.get ⟨i, hb⟩).2.2.2 : ℚ) / (oh : ℚ) < 1 / 10) ∧
              ¬((boxes.get ⟨i, hb⟩).2.2.1 < 30 ∨ (boxes.get ⟨i, hb⟩).2.2.2 < 30))) ∧
          (eventInvoked (evs.get ⟨i, he⟩) = true ↔
            (¬(mode = "fast" ∧ ((boxes.get ⟨i, hb⟩).2.2.2 : ℚ) / (oh : ℚ) < 1 / 10) ∧
              ¬((boxes.get ⟨i, hb⟩).2.2.1 < 30 ∨ (boxes.get ⟨i, hb⟩).2.2.2 < 30) ∧
              ¬((subframeDims image.h image.w (boxes.get ⟨i, hb⟩)).1 *
                (subframeDims image.h image.w (boxes.get ⟨i, hb⟩)).2 = 0))) := by
  intro boxes
  induction boxes with
  | nil =>
    intro image
    exact ⟨image, false, [], rfl, rfl, rfl, rfl, rfl, rfl,
      fun i hb _ => absurd hb (by simp)⟩
  | cons b rest ih =>
    intro image
    obtain ⟨img1, ap1, ev, hstep, hh1, hw1, hap1, hifff, hiffp, hiffi⟩ :=
      processPerson_spec bf pm mode oh b image h0
    obtain ⟨imgF, ap2, evs, hrun, hlen, hh2, hw2, hap2, hcount, hidx⟩ := ih img1
    have hbool : eventProcessed ev = boxPassB mode oh b := by
      unfold boxPassB
      by_cases hc : (¬(mode = "fast" ∧ (b.2.2.2 : ℚ) / (oh : ℚ) < 1 / 10) ∧
          ¬(b.2.2.1 < 30 ∨ b.2.2.2 < 30))
      · rw [hiffp.mpr hc, decide_eq_true hc]
      · rw [decide_eq_false hc]
        rw [Bool.eq_false_iff]
        intro hev
        exact hc (hiffp.mp hev)
    refine ⟨imgF, ap1 || ap2, ev :: evs, ?_, ?_, ?_, ?_, ?_, ?_, ?_⟩
    · unfold runBoxes
      rw [hstep]
      dsimp only
      rw [hrun]
    · simp [hlen]
    · rw [hh2, hh1]
    · rw [hw2, hw1]
    · rw [hap1, hap2, List.any_cons]
    · rw [List.countP_cons, List.countP_cons, hcount, hbool]
    · intro i hb he
      cases i with
      | zero => exact ⟨hifff, hiffp, hiffi⟩
      | succ n =>
        have hb' : n < rest.length := by simpa using hb
        have he' : n < evs.length := by simpa using he
        have h3 := hidx n hb' he'
        rw [hh1, hw1] at h3
        exact h3

/-- should_process_person computes exactly the pure pass predicate of the loop
whenever the original height is nonzero. -/
theorem should_process_person_eq (b : Box) (ow oh : ℤ) (mode : String)
    (h0 : oh ≠ 0) :
    should_process_person b (ow, oh) mode = .ok (boxPassB mode oh b) := by
  obtain ⟨x, y, pw, ph⟩ := b
  unfold should_process_person boxPassB
  dsimp only
  by_cases hs : pw < 30 ∨ ph < 30
  · rw [if_pos hs]
    congr 1
    symm
    rw [decide_eq_false_iff_not]
    exact fun hc => hc.2 hs
  · rw [if_neg hs]
    by_cases hm : mode = "fast"
    · rw [if_pos hm, if_neg h0]
      congr 1
      rw [decide_eq_decide]
      constructor
      · intro hle
        exact ⟨fun hc => absurd hc.2 (not_lt.mpr hle), hs⟩
      · intro hc
        exact not_lt.mp (fun hlt => hc.1 ⟨hm, hlt⟩)
    · rw [if_neg hm]
      congr 1
      symm
      rw [decide_eq_true_eq]
      exact ⟨fun hc => hm hc.1, hs⟩

/-- The should_process_person counter never fails for a nonzero original
height and counts exactly the boxes passing the pure predicate. -/
theorem countProcess_eq (ow oh : ℤ) (mode : String) (h0 : oh ≠ 0) :
    ∀ boxes : List Box,
      countProcess boxes (ow, oh) mode = .ok (boxes.countP (boxPassB mode oh))
  | [] => by
    unfold countProcess
    simp
  | b :: rest => by
    unfold countProcess
    rw [should_process_person_eq b ow oh mode h0, countProcess_eq ow oh mode h0 rest,
      List.countP_cons, Nat.add_comm]

/-- C10.  For every non-empty person-box list, every image and every mode
(including "standard"), blur_heads with original height 0 raises
ZeroDivisionError: the division `ph / original_h` for the first box is
evaluated before the mode and size checks and is unguarded. -/
theorem blur_heads_unguarded_division (bf : BlurFn) (pm : PoseModel)
    (enc : Image → String) (box : Box) (rest : List Box) (image : Image)
    (ow : ℤ) (mode : String) :
    blur_heads bf pm enc (box :: rest) (some image) (ow, 0) mode =
      .error .zeroDivisionError := by
  obtain ⟨px, py, pw, ph⟩ := box
  unfold blur_heads runBoxes processPerson
  dsimp only
  rw [if_pos rfl]

/-- C3 (amended).  Provided the original image height is nonzero: an
unreadable image raises the input fault ValueError; a readable image always
yields a well-formed ok result whose value is an encoded image exactly when
some box had a blur applied (an `eventApplied` event in the trace), and `none`
otherwise; and zero person boxes yield `none` with an empty trace, so neither
detection path is invoked.  (With original height 0 and at least one box the
call instead raises ZeroDivisionError — see the counterexample.) -/
theorem blur_heads_output_iff (bf : BlurFn) (pm : PoseModel) (enc : Image → String)
    (boxes : List Box) (image : Image) (ow oh : ℤ) (mode : String) (h0 : oh ≠ 0) :
    blur_heads bf pm enc boxes none (ow, oh) mode = .error .valueError ∧
    (∃ res evs, blur_heads bf pm enc boxes (some image) (ow, oh) mode = .ok (res, evs) ∧
      evs.length = boxes.length ∧ (res ≠ none ↔ evs.any eventApplied = true)) ∧
    blur_heads bf pm enc [] (some image) (ow, oh) mode = .ok (none, []) := by
  refine ⟨rfl, ?_, rfl⟩
  obtain ⟨imgF, ap, evs, hrun, hlen, _, _, hap, _, _⟩ :=
    runBoxes_spec bf pm mode oh h0 boxes image
  refine ⟨if ap then some (enc imgF) else none, evs, ?_, hlen, ?_⟩
  · unfold blur_heads
    dsimp only
    rw [hrun]
    cases ap <;> rfl
  · rw [← hap]
    cases ap <;> simp

/-- C3 witness: on the spec end-to-end example (one standing person box, pose
model finds nothing) the orchestrator returns an encoded image via the
fallback path, and the iff holds. -/
theorem blur_heads_output_iff_witness :
    blur_heads bfOne pmNone encEmpty [(50, 50, 80, 250)] none (400, 400) "standard" =
      .error .valueError ∧
    (∃ res evs, blur_heads bfOne pmNone encEmpty [(50, 50, 80, 250)] (some imgC100)
        (400, 400) "standard" = .ok (res, evs) ∧
      evs.length = [((50 : ℤ), (50 : ℤ), (80 : ℤ), (250 : ℤ))].length ∧
      (res ≠ none ↔ evs.any eventApplied = true)) ∧
    blur_heads bfOne pmNone encEmpty [] (some imgC100) (400, 400) "standard" =
      .ok (none, []) :=
  blur_heads_output_iff bfOne pmNone encEmpty [(50, 50, 80, 250)] imgC100 400 400
    "standard" (by norm_num)

/-- C3 counterexample.  With a perfectly readable image but original size
`(100, 0)`, blur_heads raises ZeroDivisionError — an exception other than the
unreadable-image input fault, so the claim that the only raised exception is
the unreadable-image fault is false. -/
theorem blur_heads_zero_height_counterexample :
    blur_heads bfOne pmNone encEmpty [(0, 0, 50, 50)] (some imgC100) (100, 0)
      "standard" = .error .zeroDivisionError := by
  unfold blur_heads runBoxes processPerson
  dsimp only
  rw [if_pos rfl]

/-- C8.  With a nonzero original height, a box is skipped by the fast-mode
relative-height rule (its trace event is `skippedFast`, on which detection is
never invoked) exactly when `mode = "fast"` and `ph / original_h < 1/10`; in
particular in "standard" mode no box is ever skipped by this rule. -/
theorem fast_mode_relative_height_skip (bf : BlurFn) (pm : PoseModel)
    (enc : Image → String) (boxes : List Box) (image : Image) (ow oh : ℤ)
    (mode : String) (h0 : oh ≠ 0) :
    ∃ res evs, blur_heads bf pm enc boxes (some image) (ow, oh) mode = .ok (res, evs) ∧
      evs.length = boxes.length ∧
      ∀ i (hb : i < boxes.length) (he : i < evs.length),
        (evs.get ⟨i, he⟩ = .skippedFast ↔
          (mode = "fast" ∧ ((boxes.get ⟨i, hb⟩).2.2.2 : ℚ) / (oh : ℚ) < 1 / 10)) ∧
        (evs.get ⟨i, he⟩ = .skippedFast →
          eventInvoked (evs.get ⟨i, he⟩) = false) := by
  obtain ⟨imgF, ap, evs, hrun, hlen, _, _, _, _, hidx⟩ :=
    runBoxes_spec bf pm mode oh h0 boxes image
  refine ⟨if ap then some (enc imgF) else none, evs, ?_, hlen, ?_⟩
  · unfold blur_heads
    dsimp only
    rw [hrun]
    cases ap <;> rfl
  · intro i hb he
    refine ⟨(hidx i hb he).1, fun hev => ?_⟩
    rw [hev]
    rfl

/-- C8 witness: the box `(0, 0, 50, 5)` with original height 1000 (relative
height 0.005) in fast mode. -/
theorem fast_mode_relative_height_skip_witness :
    ∃ res evs, blur_heads bfOne pmNone encEmpty [(0, 0, 50, 5)] (some imgC100)
        (1000, 1000) "fast" = .ok (res, evs) ∧
      evs.length = [((0 : ℤ), (0 : ℤ), (50 : ℤ), (5 : ℤ))].length ∧
      ∀ i (hb : i < [((0 : ℤ), (0 : ℤ), (50 : ℤ), (5 : ℤ))].length) (he : i < evs.length),
        (evs.get ⟨i, he⟩ = .skippedFast ↔
          ("fast" = "fast" ∧
            (([((0 : ℤ), (0 : ℤ), (50 : ℤ), (5 : ℤ))].get ⟨i, hb⟩).2.2.2 : ℚ) /
              ((1000 : ℤ) : ℚ) < 1 / 10)) ∧
        (evs.get ⟨i, he⟩ = .skippedFast →
          eventInvoked (evs.get ⟨i, he⟩) = false) :=
  fast_mode_relative_height_skip bfOne pmNone encEmpty [(0, 0, 50, 5)] imgC100
    1000 1000 "fast" (by norm_num)

/-- C9 (amended).  With a nonzero original height the per-run summary agrees
with the loop up to the empty-subframe rule: should_process_person answers
true for a box exactly when the loop passes its two skip rules (event not
`skippedFast`/`skippedSmall`), and get_processing_stats counts exactly those
events; however a box passing both rules whose extracted subframe is empty is
counted as will_process although the loop skips it without invoking detection
(see the counterexample). -/
theorem stats_agree_up_to_empty_subframe (bf : BlurFn) (pm : PoseModel)
    (enc : Image → String) (boxes : List Box) (image : Image) (ow oh : ℤ)
    (mode : String) (h0 : oh ≠ 0) :
    ∃ res evs, blur_heads bf pm enc boxes (some image) (ow, oh) mode = .ok (res, evs) ∧
      evs.length = boxes.length ∧
      (∀ i (hb : i < boxes.length) (he : i < evs.length),
        should_process_person (boxes.get ⟨i, hb⟩) (ow, oh) mode =
          .ok (eventProcessed (evs.get ⟨i, he⟩))) ∧
      get_processing_stats boxes (ow, oh) mode =
        .ok ⟨boxes.length, evs.countP eventProcessed,
          boxes.length - evs.countP eventProcessed, mode⟩ := by
  obtain ⟨imgF, ap, evs, hrun, hlen, _, _, _, hcount, hidx⟩ :=
    runBoxes_spec bf pm mode oh h0 boxes image
  refine ⟨if ap then some (enc imgF) else none, evs, ?_, hlen, ?_, ?_⟩
  · unfold blur_heads
    dsimp only
    rw [hrun]
    cases ap <;> rfl
  · intro i hb he
    rw [should_process_person_eq _ ow oh mode h0]
    congr 1
    have hiff := (hidx i hb he).2.1
    rw [Bool.eq_iff_iff]
    unfold boxPassB
    rw [decide_eq_true_eq]
    exact hiff.symm
  · unfold get_processing_stats
    rw [countProcess_eq ow oh mode h0 boxes, hcount]

/-- C9 witness: one in-bounds box, standard mode: the stats report one box to
process and the loop indeed reaches detection (a fallback event). -/
theorem stats_agree_witness :
    ∃ res evs, blur_heads bfOne pmNone encEmpty [(0, 0, 50, 50)] (some imgC100)
        (100, 100) "standard" = .ok (res, evs) ∧
      evs.length = [((0 : ℤ), (0 : ℤ), (50 : ℤ), (50 : ℤ))].length ∧
      (∀ i (hb : i < [((0 : ℤ), (0 : ℤ), (50 : ℤ), (50 : ℤ))].length)
          (he : i < evs.length),
        should_process_person ([((0 : ℤ), (0 : ℤ), (50 : ℤ), (50 : ℤ))].get ⟨i, hb⟩)
            (100, 100) "standard" = .ok (eventProcessed (evs.get ⟨i, he⟩))) ∧
      get_processing_stats [(0, 0, 50, 50)] (100, 100) "standard" =
        .ok ⟨[((0 : ℤ), (0 : ℤ), (50 : ℤ), (50 : ℤ))].length,
          evs.countP eventProcessed,
          [((0 : ℤ), (0 : ℤ), (50 : ℤ), (50 : ℤ))].length - evs.countP eventProcessed,
          "standard"⟩ :=
  stats_agree_up_to_empty_subframe bfOne pmNone encEmpty [(0, 0, 50, 50)] imgC100
    100 100 "standard" (by norm_num)

/-- C9 counterexample.  Box `(0, 200, 50, 50)` lies entirely below a 100 x 100
image: get_processing_stats counts it as will_process (1 of 1), but the loop
skips it with an empty-subframe event and never invokes detection — the
summary diverges from actual processing. -/
theorem stats_diverge_on_empty_subframe :
    get_processing_stats [(0, 200, 50, 50)] (100, 100) "standard" =
      .ok ⟨1, 1, 0, "standard"⟩ ∧
    blur_heads bfOne pmNone encEmpty [(0, 200, 50, 50)] (some imgC100) (100, 100)
      "standard" = .ok (none, [BoxEvent.skippedEmpty]) ∧
    eventInvoked BoxEvent.skippedEmpty = false := by
  refine ⟨?_, ?_, rfl⟩
  · norm_num [get_processing_stats, countProcess, should_process_person]
  · norm_num [blur_heads, runBoxes, processPerson, subframe, subframeDims,
      npSliceStart, imgC100]

end FaceModule
